import Mathlib

/-!
Shallow embedding of `tmrl/sac_models.py` (squashed-Gaussian SAC actor-critic
models): the numerically stable squashed-Gaussian policy head, the feed-forward
and recurrent actors, the action-value heads, and the environment-facing
adapter.  Values are modelled over `ℝ`; tensors as (nested) lists; the shape
semantics of the tensor operations that the code uses (`squeeze`, `sum(axis)`,
`Linear`, `cat`) is modelled separately over `List ℕ`.
-/

namespace SacModels

/-- A vector: one tensor row of reals. -/
abbrev Vec := List ℝ

/-- Rank-2 tensor (batch of rows). -/
abbrev T2 := List Vec

/-- Rank-3 tensor (e.g. time-major sequence of batches, or a stacked GRU
hidden state `(num_layers, batch, hidden_size)`). -/
abbrev T3 := List T2

/-! ### Scalar numerical routines -/

/-- Model of `torch.clamp(x, lo, hi)`. -/
noncomputable def clampR (lo hi x : ℝ) : ℝ := min (max x lo) hi

/-- Constant `LOG_STD_MAX = 2` (sac_models.py line 106). -/
def LOG_STD_MAX : ℝ := 2

/-- Constant `LOG_STD_MIN = -20` (sac_models.py line 107). -/
def LOG_STD_MIN : ℝ := -20

/-- Model of `F.softplus(x)`: `ln(1 + e^x)`, the mathematical function
computed by the torch runtime. -/
noncomputable def softplus (x : ℝ) : ℝ := Real.log (1 + Real.exp x)

/-- Model of `torch.distributions.Normal(μ, σ).log_prob(x)`:
`-(x-μ)² / (2σ²) - ln σ - ln √(2π)`. -/
noncomputable def normalLogPdf (μ σ x : ℝ) : ℝ :=
  -((x - μ) ^ 2) / (2 * σ ^ 2) - Real.log σ - Real.log (Real.sqrt (2 * Real.pi))

/-- One summand of the tanh-squash Jacobian correction as the code writes it:
`2*(np.log(2) - x - F.softplus(-2*x))` (sac_models.py lines 143 and 270). -/
noncomputable def jacCorr (x : ℝ) : ℝ :=
  2 * (Real.log 2 - x - softplus (-2 * x))

/-- Model of `relu`, the default activation. -/
noncomputable def relu (x : ℝ) : ℝ := max x 0

/-! ### Auxiliary facts about the scalar routines -/

theorem exp_add_exp_neg_eq (x : ℝ) :
    Real.exp x + Real.exp (-x) = Real.exp x * (1 + Real.exp (-2 * x)) := by
  rw [mul_add, mul_one, ← Real.exp_add]
  ring_nf

theorem log_cosh_eq (x : ℝ) :
    Real.log (Real.cosh x) = x + softplus (-2 * x) - Real.log 2 := by
  have hpos : (0:ℝ) < 1 + Real.exp (-2 * x) := by positivity
  rw [Real.cosh_eq, Real.log_div (by positivity) (by norm_num),
    exp_add_exp_neg_eq, Real.log_mul (Real.exp_pos x).ne' hpos.ne',
    Real.log_exp, softplus]

/-- Identity `1 - tanh(x)² = 1 / cosh(x)²`. -/
theorem one_sub_tanh_sq (x : ℝ) :
    1 - Real.tanh x ^ 2 = 1 / Real.cosh x ^ 2 := by
  have hc : Real.cosh x ≠ 0 := (Real.cosh_pos x).ne'
  rw [Real.tanh_eq_sinh_div_cosh, div_pow]
  field_simp

/-- The code's stability-corrected Jacobian summand equals the mathematical
Jacobian `ln(1 - tanh(x)²)` of the tanh squash. -/
theorem jacCorr_eq_log_one_sub_tanh_sq (x : ℝ) :
    jacCorr x = Real.log (1 - Real.tanh x ^ 2) := by
  rw [one_sub_tanh_sq, one_div, Real.log_inv, Real.log_pow]
  have := log_cosh_eq x
  rw [jacCorr]
  push_cast
  linarith

/-- Strict tanh bound: `-1 < tanh x < 1`. -/
theorem tanh_mem_Ioo (x : ℝ) : -1 < Real.tanh x ∧ Real.tanh x < 1 := by
  have hc : (0:ℝ) < Real.cosh x := Real.cosh_pos x
  constructor
  · rw [Real.tanh_eq_sinh_div_cosh, lt_div_iff₀ hc]
    have h := Real.sinh_lt_cosh (-x)
    rw [Real.sinh_neg, Real.cosh_neg] at h
    linarith
  · rw [Real.tanh_eq_sinh_div_cosh, div_lt_one hc]
    exact Real.sinh_lt_cosh x

/-- Clamping at `v < lo` yields `lo`. -/
theorem clampR_of_lt (lo hi v : ℝ) (hlohi : lo ≤ hi) (h : v < lo) :
    clampR lo hi v = lo := by
  rw [clampR, max_eq_right h.le, min_eq_left hlohi]

/-- Clamping at `hi < v` yields `hi`. -/
theorem clampR_of_gt (lo hi v : ℝ) (hlohi : lo ≤ hi) (h : hi < v) :
    clampR lo hi v = hi := by
  rw [clampR, max_eq_left (hlohi.trans h.le), min_eq_right h.le]

/-! ### Linear layers and MLP trunks (value level, one batch row) -/

/-- Model of `nn.Linear`: a weight matrix (one row per output unit) and a
bias. -/
structure Layer where
  weight : List Vec
  bias : Vec

/-- Dot product of two rows. -/
noncomputable def dot (u v : Vec) : ℝ := (List.zipWith (· * ·) u v).sum

/-- Apply a linear layer to one input row: `W·x + b`. -/
noncomputable def linApply (L : Layer) (x : Vec) : Vec :=
  List.zipWith (fun w b => dot w x + b) L.weight L.bias

/-- Elementwise `relu`. -/
noncomputable def reluV (x : Vec) : Vec := x.map relu

/-- Model of `mlp(sizes, activation, activation)` applied to one row: the actor trunk
built by `mlp` (line 94) puts the activation after every linear layer,
including the last, because `SquashedGaussianMLPActor.__init__` passes the
same activation as `output_activation` (line 116). -/
noncomputable def trunkApply (layers : List Layer) (x : Vec) : Vec :=
  layers.foldl (fun v L => reluV (linApply L v)) x

/-- Model of `torch.cat(obs, -1)` on a tuple of observation rows. -/
def catVecs (obs : List Vec) : Vec := obs.flatten

/-- Three-way zip, for elementwise combination of mean/std/sample rows. -/
def zipWith3 (f : ℝ → ℝ → ℝ → ℝ) : Vec → Vec → Vec → Vec
  | a :: as, b :: bs, c :: cs => f a b c :: zipWith3 f as bs cs
  | _, _, _ => []

/-! ### `SquashedGaussianMLPActor` (sac_models.py lines 110-157) -/

/-- Parameters of `SquashedGaussianMLPActor`: trunk `net`, `mu_layer`,
`log_std_layer` and the scalar `act_limit`. -/
structure MLPActor where
  net : List Layer
  mu_layer : Layer
  log_std_layer : Layer
  act_limit : ℝ

/-- Line 122: `net_out = self.net(torch.cat(obs, -1))`. -/
noncomputable def mlpNetOut (A : MLPActor) (obs : List Vec) : Vec :=
  trunkApply A.net (catVecs obs)

/-- Line 123: `mu = self.mu_layer(net_out)`. -/
noncomputable def mlpMu (A : MLPActor) (obs : List Vec) : Vec :=
  linApply A.mu_layer (mlpNetOut A obs)

/-- Line 124: raw output of `self.log_std_layer(net_out)` before clamping. -/
noncomputable def mlpLogStdRaw (A : MLPActor) (obs : List Vec) : Vec :=
  linApply A.log_std_layer (mlpNetOut A obs)

/-- Line 125: `log_std = torch.clamp(log_std, LOG_STD_MIN, LOG_STD_MAX)`. -/
noncomputable def mlpLogStd (A : MLPActor) (obs : List Vec) : Vec :=
  (mlpLogStdRaw A obs).map (clampR LOG_STD_MIN LOG_STD_MAX)

/-- Line 126: `std = torch.exp(log_std)`. -/
noncomputable def mlpStd (A : MLPActor) (obs : List Vec) : Vec :=
  (mlpLogStd A obs).map Real.exp

/-- Model of `Normal(mu, std).rsample()` with the reparameterization noise `ε` made
explicit: `μ + σ·ε`. -/
noncomputable def rsample (μ σ ε : Vec) : Vec :=
  zipWith3 (fun m s e => m + s * e) μ σ ε

/-- Lines 129-134: the pre-squash action `pi_action`: the mean when
`deterministic`, otherwise a reparameterized sample. -/
noncomputable def mlpPiPre (A : MLPActor) (obs : List Vec) (det : Bool)
    (ε : Vec) : Vec :=
  if det then mlpMu A obs else rsample (mlpMu A obs) (mlpStd A obs) ε

/-- Line 142: `pi_distribution.log_prob(pi_action).sum(axis=-1)` for one
batch row: the Gaussian log-density summed over the action dimensions. -/
noncomputable def gaussLogpSum (μ σ x : Vec) : ℝ :=
  (zipWith3 normalLogPdf μ σ x).sum

/-- Line 143: the Jacobian correction summed over the action dimensions of
one batch row. -/
noncomputable def corrSum (x : Vec) : ℝ := (x.map jacCorr).sum

/-- Lines 142-143: `logp_pi` for one batch row. -/
noncomputable def mlpLogp (A : MLPActor) (obs : List Vec) (det : Bool)
    (ε : Vec) : ℝ :=
  gaussLogpSum (mlpMu A obs) (mlpStd A obs) (mlpPiPre A obs det ε)
    - corrSum (mlpPiPre A obs det ε)

/-- Lines 147-148: `tanh` squash then scale by `act_limit`, elementwise. -/
noncomputable def squash (lim : ℝ) (x : Vec) : Vec :=
  x.map (fun t => lim * Real.tanh t)

/-- Model of `SquashedGaussianMLPActor.forward` (lines 121-152) for one batch
row:
returns `(pi_action, logp_pi)`; `logp_pi` is `none` when `with_logprob` is
false.  (`squeeze` is a no-op on the values of a row; its shape behaviour is
modelled separately below.) -/
noncomputable def mlpForward (A : MLPActor) (obs : List Vec) (det wl : Bool)
    (ε : Vec) : Vec × Option ℝ :=
  (squash A.act_limit (mlpPiPre A obs det ε),
    if wl then some (mlpLogp A obs det ε) else none)

/-! ### `SquashedGaussianRNNActor` (sac_models.py lines 215-288)

The GRU itself (`torch.nn.GRU`, built by `rnn`, lines 197-212) belongs to the
out-of-scope tensor runtime, so it is carried as an abstract function field
`(input sequence, initial hidden) ↦ (output sequence, final hidden)`; every
theorem below holds for an arbitrary such function.  The mutable `self.h`
field is the `h` component of the structure, and `forward` returns the
updated structure alongside its result. -/

/-- State and parameters of `SquashedGaussianRNNActor`. -/
structure RNNActor where
  gru : T3 → T3 → T3 × T3
  mlp : List Layer
  mu_layer : Layer
  log_std_layer : Layer
  act_limit : ℝ
  rnn_size : ℕ
  rnn_len : ℕ
  h : Option T3

/-- Model of `torch.zeros((l, b, s))`. -/
def zeros3 (l b s : ℕ) : T3 :=
  List.replicate l (List.replicate b (List.replicate s (0:ℝ)))

/-- Line 238: `batch_size = obs_seq[0].shape[1]`. -/
def batchSize (obs_seq : List T3) : ℕ := ((obs_seq.headD []).headD []).length

/-- Line 246: `torch.cat(obs_seq, -1)`: concatenate the tuple members along
the last (feature) axis, per time step and batch element. -/
def catSeqLast (obs_seq : List T3) : T3 :=
  match obs_seq with
  | [] => []
  | t :: rest =>
      rest.foldl (fun acc u =>
        List.zipWith (fun a b => List.zipWith (· ++ ·) a b) acc u) t

/-- Lines 240-244: the hidden state fed to the GRU: a fresh zero tensor of
shape `(rnn_len, batch_size, rnn_size)` when `save_hidden` is false or no
state is stored, the stored state otherwise. -/
def rnnH0 (A : RNNActor) (obs_seq : List T3) (save_hidden : Bool) : T3 :=
  match save_hidden, A.h with
  | true, some t => t
  | _, _ => zeros3 A.rnn_len (batchSize obs_seq) A.rnn_size

/-- Lines 247-248: run the GRU on the concatenated sequence and keep only the
final time step (`net_out = net_out[-1]`). -/
def rnnNetOut (A : RNNActor) (obs_seq : List T3) (save_hidden : Bool) : T2 :=
  ((A.gru (catSeqLast obs_seq) (rnnH0 A obs_seq save_hidden)).1).getLastD []

/-- Line 249: the post-GRU MLP trunk, per batch row (built by
`mlp([rnn_size] + list(mlp_sizes), activation, activation)`, line 222). -/
noncomputable def rnnTrunk (A : RNNActor) (netOut : T2) : T2 :=
  netOut.map (trunkApply A.mlp)

/-- Line 250: `mu = self.mu_layer(net_out)`, per batch row. -/
noncomputable def rnnMu (A : RNNActor) (netOut : T2) : T2 :=
  (rnnTrunk A netOut).map (linApply A.mu_layer)

/-- Line 251: the raw log-std projection, per batch row. -/
noncomputable def rnnLogStdRaw (A : RNNActor) (netOut : T2) : T2 :=
  (rnnTrunk A netOut).map (linApply A.log_std_layer)

/-- Lines 252-253: clamp then exponentiate, per batch row. -/
noncomputable def rnnStd (A : RNNActor) (netOut : T2) : T2 :=
  (rnnLogStdRaw A netOut).map
    (fun r => (r.map (clampR LOG_STD_MIN LOG_STD_MAX)).map Real.exp)

/-- Lines 256-261: the pre-squash action, per batch row. -/
noncomputable def rnnPiPre (A : RNNActor) (netOut : T2) (det : Bool)
    (ε : T2) : T2 :=
  if det then rnnMu A netOut
  else
    List.zipWith (fun p ε' => rsample p.1 p.2 ε')
      (List.zip (rnnMu A netOut) (rnnStd A netOut)) ε

/-- Lines 269-270: `logp_pi` per batch row. -/
noncomputable def rnnLogp (A : RNNActor) (netOut : T2) (det : Bool)
    (ε : T2) : List ℝ :=
  List.zipWith (fun p x => gaussLogpSum p.1 p.2 x - corrSum x)
    (List.zip (rnnMu A netOut) (rnnStd A netOut)) (rnnPiPre A netOut det ε)

/-- Lines 250-277: everything downstream of the GRU: trunk, projections,
sampling, log-prob, squash.  Shared by both hidden-state modes. -/
noncomputable def rnnDownstream (A : RNNActor) (netOut : T2) (det wl : Bool)
    (ε : T2) : T2 × Option (List ℝ) :=
  ((rnnPiPre A netOut det ε).map (squash A.act_limit),
    if wl then some (rnnLogp A netOut det ε) else none)

/-- Model of `SquashedGaussianRNNActor.forward` (lines 230-282): returns the
`(pi_action, logp_pi)` pair and the actor with its `h` field as the call
leaves it (updated only when `save_hidden`, lines 279-280). -/
noncomputable def rnnForward (A : RNNActor) (obs_seq : List T3)
    (det wl save_hidden : Bool) (ε : T2) :
    (T2 × Option (List ℝ)) × RNNActor :=
  let hN := (A.gru (catSeqLast obs_seq) (rnnH0 A obs_seq save_hidden)).2
  (rnnDownstream A (rnnNetOut A obs_seq save_hidden) det wl ε,
    if save_hidden then { A with h := some hN } else A)

/-! ### `ActorModule` adapter (sac_models.py lines 26-48) -/

/-- Model of `ActorModule.reset` (lines 36-38): its body is only
`return np.array(())` — it returns an empty placeholder (modelled as the
empty array `[]`) and does not touch the wrapped module, so any internally
stored recurrent hidden state is left exactly as it was. -/
def ActorModule_reset (A : RNNActor) : Vec × RNNActor := (([] : Vec), A)

/-! ### Shape semantics of the tensor operations used by the code

A shape is a `List ℕ` of dimension sizes, outermost first, exactly as torch
reports `Tensor.shape`. -/

/-- Shape of `nn.Linear(d_in, d_out)`: it maps a tensor `(..., d_in)` to `(..., d_out)`;
elementwise activations preserve the shape. -/
def linearShape (dout : ℕ) (s : List ℕ) : List ℕ := s.dropLast ++ [dout]

/-- Shape of `mlp(sizes, ...)` applied to an input of shape `s`: the layers
are `Linear(sizes[j], sizes[j+1])` for each consecutive pair (line 94-99), so
the last axis is rewritten to each of `sizes.tail` in turn. -/
def mlpShape (sizes : List ℕ) (s : List ℕ) : List ℕ :=
  sizes.tail.foldl (fun sh d => linearShape d sh) s

/-- Shape of `torch.cat(ts, -1)`: same leading dims, last dims summed. -/
def catLastShape (shapes : List (List ℕ)) : List ℕ :=
  match shapes with
  | [] => []
  | s :: _ => s.dropLast ++ [(shapes.map (fun t => t.getLastD 0)).sum]

/-- Shape of `torch.squeeze(q, -1)`: drops the last axis iff its size is 1. -/
def squeezeLastShape (s : List ℕ) : List ℕ :=
  if s.getLast? = some 1 then s.dropLast else s

/-- Shape of `Tensor.squeeze()` with no argument: drops every axis of size 1,
wherever it occurs. -/
def squeezeAllShape (s : List ℕ) : List ℕ := s.filter (fun d => d ≠ 1)

/-- torch axis normalization for a reduction over `ax` on a tensor of rank
`rank`: valid iff `-rank ≤ ax < rank`, negative axes counted from the end. -/
def normAxis (rank : ℕ) (ax : ℤ) : Option ℕ :=
  if 0 ≤ ax ∧ ax < (rank : ℤ) then some ax.toNat
  else if -(rank : ℤ) ≤ ax ∧ ax < 0 then some ((rank : ℤ) + ax).toNat
  else none

/-- Shape of `x.sum(axis=ax)`: the reduced axis is removed; `none` when the
axis does not exist (torch raises `IndexError: Dimension out of range`). -/
def sumAxisShape (s : List ℕ) (ax : ℤ) : Option (List ℕ) :=
  (normAxis s.length ax).map (fun k => s.eraseIdx k)

/-- Shape semantics of lines 142-143 (and 269-270): the Gaussian term is
reduced with `sum(axis=-1)`, the Jacobian correction with `sum(axis=1)`, and
the two are subtracted; the result is defined only when both reductions
are. -/
def logpShape (s : List ℕ) : Option (List ℕ) :=
  match sumAxisShape s (-1), sumAxisShape s 1 with
  | some g, some _ => some g
  | _, _ => none

/-- Output shape of `MlpActionValue.forward` (lines 51-61) on a batch of `B`
observation/action rows: `cat` along the last axis, then
`SacLinear(dim_obs+dim_act, h) → ReLU → SacLinear(h, h) → ReLU →
Linear(h, 2)`, with no squeeze. -/
def MlpActionValue_shape (B dobs dact hu : ℕ) : List ℕ :=
  let x := catLastShape [[B, dobs], [B, dact]]
  linearShape 2 (linearShape hu (linearShape hu x))

/-- Output shape of `MLPQFunction.forward` (lines 168-171) on a batch of `B`
observation/action rows: `cat`, then `mlp([obs_dim+act_dim] + hidden + [1])`,
then `torch.squeeze(q, -1)`. -/
def MLPQFunction_shape (B dobs dact : ℕ) (hidden : List ℕ) : List ℕ :=
  let x := catLastShape [[B, dobs], [B, dact]]
  let q := mlpShape ([dobs + dact] ++ hidden ++ [1]) x
  squeezeLastShape q

/-- Shape of the action returned by `SquashedGaussianMLPActor.forward` for a
rank-2 `(B, dim_act)` pre-squash tensor: `tanh` and the `act_limit` scaling
preserve the shape, then line 150 applies `pi_action.squeeze()`. -/
def mlpActorActionShape (B dact : ℕ) : List ℕ := squeezeAllShape [B, dact]

/-! ### Helper lemmas -/

/-- The correction sum of lines 143/270 equals the sum of the mathematical
tanh Jacobian `ln(1 - tanh²)` over the same entries. -/
theorem corrSum_eq_log (l : Vec) :
    corrSum l = (l.map (fun x => Real.log (1 - Real.tanh x ^ 2))).sum := by
  unfold corrSum
  congr 1
  exact List.map_congr_left (fun x _ => jacCorr_eq_log_one_sub_tanh_sq x)

/-- Folding linear layers over a rank-2 shape keeps the batch axis and
rewrites the feature axis to the last layer width. -/
theorem getLastD_cons' (a x : ℕ) (t : List ℕ) :
    (a :: t).getLastD x = t.getLastD a := by
  cases t <;> rfl

theorem getLastD_append_singleton (l : List ℕ) (a d : ℕ) :
    (l ++ [a]).getLastD d = a := by
  induction l generalizing d with
  | nil => rfl
  | cons x t ih => rw [List.cons_append, getLastD_cons', ih]

theorem normAxis_neg_one (r : ℕ) (hr : 1 ≤ r) : normAxis r (-1) = some (r - 1) := by
  rw [normAxis, if_neg (by omega), if_pos (by omega)]
  congr 1
  omega

theorem normAxis_one_of_ge (r : ℕ) (hr : 2 ≤ r) : normAxis r 1 = some 1 := by
  rw [normAxis, if_pos (by omega)]
  rfl

theorem normAxis_one_of_lt (r : ℕ) (hr : r < 2) : normAxis r 1 = none := by
  rw [normAxis, if_neg (by omega), if_neg (by omega)]

theorem normAxis_neg_one_zero : normAxis 0 (-1) = none := by
  rw [normAxis, if_neg (by omega), if_neg (by omega)]

theorem foldl_linearShape_pair (l : List ℕ) (B x : ℕ) :
    l.foldl (fun sh d => linearShape d sh) [B, x] = [B, l.getLastD x] := by
  induction l generalizing x with
  | nil => rfl
  | cons a t ih =>
      rw [List.foldl_cons, getLastD_cons',
        show linearShape a [B, x] = [B, a] from rfl, ih a]

/-- Concrete layer used by witnesses. -/
def witLayer : Layer := ⟨[], []⟩

/-- Concrete feed-forward actor used by witnesses. -/
def witA : MLPActor := ⟨[], witLayer, witLayer, 1⟩

/-- Concrete recurrent actor used by witnesses (identity GRU, no stored
state). -/
def witR : RNNActor := ⟨fun a b => (a, b), [], witLayer, witLayer, 1, 1, 1, none⟩

/-! ### Claim theorems -/

/-- C1: when the log-probability is requested, both actors' forward passes
return the base Gaussian log-density of the pre-squash sample summed over the
action dimensions, minus the Jacobian correction
`Σ 2·(ln 2 − x − softplus(−2x))`; and that correction sum equals the
mathematical Jacobian `Σ ln(1 − tanh(x)²)`. -/
theorem logp_is_gaussian_minus_jacobian (A : MLPActor) (obs : List Vec)
    (det : Bool) (ε : Vec) (R : RNNActor) (os : List T3) (det' sh : Bool)
    (εr : T2) :
    (mlpForward A obs det true ε).2 =
      some (gaussLogpSum (mlpMu A obs) (mlpStd A obs) (mlpPiPre A obs det ε)
        - ((mlpPiPre A obs det ε).map
            (fun x => 2 * (Real.log 2 - x - softplus (-2 * x)))).sum)
    ∧ (rnnForward R os det' true sh εr).1.2 =
      some (List.zipWith
        (fun p x => gaussLogpSum p.1 p.2 x
          - (x.map (fun t => 2 * (Real.log 2 - t - softplus (-2 * t)))).sum)
        (List.zip (rnnMu R (rnnNetOut R os sh)) (rnnStd R (rnnNetOut R os sh)))
        (rnnPiPre R (rnnNetOut R os sh) det' εr))
    ∧ ((mlpPiPre A obs det ε).map
          (fun x => 2 * (Real.log 2 - x - softplus (-2 * x)))).sum =
        ((mlpPiPre A obs det ε).map
          (fun x => Real.log (1 - Real.tanh x ^ 2))).sum := by
  refine ⟨rfl, rfl, ?_⟩
  exact corrSum_eq_log (mlpPiPre A obs det ε)

/-- C2: both actors return exactly `act_limit · tanh(x)` elementwise on the
pre-squash sample (no post-hoc clipping), and for any positive limit the
scaled tanh lies strictly inside `(-act_limit, act_limit)`. -/
theorem action_is_scaled_tanh_strictly_bounded (A : MLPActor)
    (obs : List Vec) (det wl : Bool) (ε : Vec) (R : RNNActor) (os : List T3)
    (det' wl' sh : Bool) (εr : T2) (lim x : ℝ) (hlim : 0 < lim) :
    (mlpForward A obs det wl ε).1
      = (mlpPiPre A obs det ε).map (fun t => A.act_limit * Real.tanh t)
    ∧ (rnnForward R os det' wl' sh εr).1.1
      = (rnnPiPre R (rnnNetOut R os sh) det' εr).map
          (fun r => r.map (fun t => R.act_limit * Real.tanh t))
    ∧ -lim < lim * Real.tanh x ∧ lim * Real.tanh x < lim := by
  obtain ⟨h1, h2⟩ := tanh_mem_Ioo x
  refine ⟨rfl, rfl, ?_, ?_⟩
  · nlinarith
  · nlinarith

/-- C2 witness: the theorem instantiated at a concrete actor pair, limit `1`
and pre-squash value `0`. -/
theorem action_is_scaled_tanh_strictly_bounded_witness :
    (0 : ℝ) < 1 ∧
    ((mlpForward witA [] false false []).1
      = (mlpPiPre witA [] false []).map (fun t => witA.act_limit * Real.tanh t)
    ∧ (rnnForward witR [] false false false []).1.1
      = (rnnPiPre witR (rnnNetOut witR [] false) false []).map
          (fun r => r.map (fun t => witR.act_limit * Real.tanh t))
    ∧ -(1:ℝ) < 1 * Real.tanh 0 ∧ 1 * Real.tanh 0 < (1:ℝ)) :=
  ⟨by norm_num,
    action_is_scaled_tanh_strictly_bounded witA [] false false [] witR []
      false false false [] 1 0 (by norm_num)⟩

/-- C3: in both actors the std used to build the Gaussian is exactly
`exp(clamp(v, −20, 2))` of the raw log-std projection output `v`; a raw
value below `−20` yields `exp(−20)`, one above `2` yields `exp(2)`, and in
both saturated cases the effective std differs from `exp(v)`. -/
theorem std_is_exp_of_clamped_logstd (A : MLPActor) (obs : List Vec)
    (R : RNNActor) (no : T2) (v w : ℝ) (hv : v < LOG_STD_MIN)
    (hw : LOG_STD_MAX < w) :
    mlpStd A obs = (mlpLogStdRaw A obs).map
        (fun t => Real.exp (clampR LOG_STD_MIN LOG_STD_MAX t))
    ∧ rnnStd R no = (rnnLogStdRaw R no).map
        (fun r => r.map (fun t => Real.exp (clampR LOG_STD_MIN LOG_STD_MAX t)))
    ∧ Real.exp (clampR LOG_STD_MIN LOG_STD_MAX v) = Real.exp LOG_STD_MIN
    ∧ Real.exp (clampR LOG_STD_MIN LOG_STD_MAX w) = Real.exp LOG_STD_MAX
    ∧ Real.exp (clampR LOG_STD_MIN LOG_STD_MAX v) ≠ Real.exp v
    ∧ Real.exp (clampR LOG_STD_MIN LOG_STD_MAX w) ≠ Real.exp w := by
  have hlohi : LOG_STD_MIN ≤ LOG_STD_MAX := by norm_num [LOG_STD_MIN, LOG_STD_MAX]
  have hcv := clampR_of_lt LOG_STD_MIN LOG_STD_MAX v hlohi hv
  have hcw := clampR_of_gt LOG_STD_MIN LOG_STD_MAX w hlohi hw
  refine ⟨?_, ?_, by rw [hcv], by rw [hcw], ?_, ?_⟩
  · simp [mlpStd, mlpLogStd, List.map_map, Function.comp]
  · simp [rnnStd, List.map_map, Function.comp]
  · rw [hcv]
    exact fun hcon => absurd (Real.exp_eq_exp.mp hcon) hv.ne'
  · rw [hcw]
    exact fun hcon => absurd (Real.exp_eq_exp.mp hcon) hw.ne

/-- C3 witness: the theorem instantiated at a concrete actor pair with raw
log-std outputs `−25` and `3`. -/
theorem std_is_exp_of_clamped_logstd_witness :
    (-25 : ℝ) < LOG_STD_MIN ∧ LOG_STD_MAX < (3 : ℝ) ∧
    (mlpStd witA [] = (mlpLogStdRaw witA []).map
        (fun t => Real.exp (clampR LOG_STD_MIN LOG_STD_MAX t))
    ∧ rnnStd witR [] = (rnnLogStdRaw witR []).map
        (fun r => r.map (fun t => Real.exp (clampR LOG_STD_MIN LOG_STD_MAX t)))
    ∧ Real.exp (clampR LOG_STD_MIN LOG_STD_MAX (-25)) = Real.exp LOG_STD_MIN
    ∧ Real.exp (clampR LOG_STD_MIN LOG_STD_MAX 3) = Real.exp LOG_STD_MAX
    ∧ Real.exp (clampR LOG_STD_MIN LOG_STD_MAX (-25)) ≠ Real.exp (-25)
    ∧ Real.exp (clampR LOG_STD_MIN LOG_STD_MAX 3) ≠ Real.exp 3) :=
  ⟨by norm_num [LOG_STD_MIN], by norm_num [LOG_STD_MAX],
    std_is_exp_of_clamped_logstd witA [] witR [] (-25) 3
      (by norm_num [LOG_STD_MIN]) (by norm_num [LOG_STD_MAX])⟩

/-- C4: in deterministic mode the pre-squash value is the mean `μ`, so the
forward pass is independent of the sampling noise: two deterministic-mode
calls with the same parameters, the same observation (and, for the recurrent
variant, the same stored hidden state) return identical results. -/
theorem deterministic_forward_noise_independent (A : MLPActor)
    (obs : List Vec) (wl : Bool) (ε₁ ε₂ : Vec) (R : RNNActor) (os : List T3)
    (wl' sh : Bool) (εr₁ εr₂ : T2) :
    mlpForward A obs true wl ε₁ = mlpForward A obs true wl ε₂
    ∧ rnnForward R os true wl' sh εr₁ = rnnForward R os true wl' sh εr₂ := by
  constructor
  · simp [mlpForward, mlpLogp, mlpPiPre]
  · simp [rnnForward, rnnDownstream, rnnLogp, rnnPiPre]

/-- C5: a fresh-unroll call (`save_hidden = false`) uses a zero hidden state
of shape `(rnn_len, batch_size, rnn_size)`, feeds only the final time step of
the GRU output downstream, and returns the instance with its stored
hidden-state field untouched. -/
theorem fresh_unroll_zero_state_no_mutation (A : RNNActor) (os : List T3)
    (det wl : Bool) (ε : T2) :
    (rnnForward A os det wl false ε).2 = A
    ∧ rnnH0 A os false = zeros3 A.rnn_len (batchSize os) A.rnn_size
    ∧ rnnNetOut A os false =
        ((A.gru (catSeqLast os)
          (zeros3 A.rnn_len (batchSize os) A.rnn_size)).1).getLastD []
    ∧ (rnnForward A os det wl false ε).1 =
        rnnDownstream A (rnnNetOut A os false) det wl ε := by
  refine ⟨rfl, ?_, ?_, rfl⟩
  · cases A.h <;> rfl
  · unfold rnnNetOut
    cases hA : A.h <;> rw [rnnH0] <;> simp [hA]

/-- C6: a persisted call (`save_hidden = true`) starts from the stored hidden
state when one exists and from zero otherwise, stores the GRU's final hidden
state on the instance, and the next persisted call starts from exactly that
stored state. -/
theorem persisted_state_threading (A : RNNActor) (os os' : List T3)
    (det wl : Bool) (ε : T2) :
    rnnH0 A os true = A.h.getD (zeros3 A.rnn_len (batchSize os) A.rnn_size)
    ∧ (rnnForward A os det wl true ε).2.h =
        some ((A.gru (catSeqLast os) (rnnH0 A os true)).2)
    ∧ rnnH0 ((rnnForward A os det wl true ε).2) os' true =
        (A.gru (catSeqLast os) (rnnH0 A os true)).2 := by
  refine ⟨?_, rfl, rfl⟩
  cases hA : A.h <;> simp [rnnH0, hA]

/-- C7 counterexample: `ActorModule.reset` on an instance holding a non-zero
stored hidden state leaves that state stored, so the next persisted call
starts from it rather than from a fresh zero state. -/
theorem reset_does_not_clear_hidden_cex :
    (ActorModule_reset { witR with h := some [[[ (1:ℝ) ]]] }).2.h
        = some [[[ (1:ℝ) ]]]
    ∧ (ActorModule_reset { witR with h := some [[[ (1:ℝ) ]]] }).2.h
        ≠ (none : Option T3)
    ∧ rnnH0 (ActorModule_reset { witR with h := some [[[ (1:ℝ) ]]] }).2 [] true
        ≠ zeros3 1 1 1 := by
  refine ⟨rfl, by simp [ActorModule_reset], ?_⟩
  simp [ActorModule_reset, rnnH0, witR, zeros3]

/-- C7 amended: `reset()` returns an empty placeholder structure and leaves
the wrapped instance — in particular any internally stored recurrent hidden
state — unchanged; it performs no clearing. -/
theorem reset_returns_empty_placeholder_state_unchanged (A : RNNActor) :
    ActorModule_reset A = (([] : Vec), A)
    ∧ (ActorModule_reset A).2.h = A.h :=
  ⟨rfl, rfl⟩

/-- C8 counterexample: `MlpActionValue` ends in `Linear(hidden_units, 2)`
with no squeeze, so on a batch of 3 its output shape is `[3, 2]`, not the
one-dimensional `[3]` the claim requires of every Action-Value Head. -/
theorem action_value_pair_output_cex :
    MlpActionValue_shape 3 4 2 256 = [3, 2]
    ∧ MlpActionValue_shape 3 4 2 256 ≠ [3] := by
  constructor <;> decide

/-- C8 amended: `MLPQFunction.forward` ends in a single scalar per batch
element and removes the trailing singleton dimension, returning a
one-dimensional value tensor of length `B`; `MlpActionValue`, however,
outputs two values per batch element with no squeeze. -/
theorem q_head_output_is_1d_batch (B dobs dact : ℕ) (hidden : List ℕ) :
    MLPQFunction_shape B dobs dact hidden = [B]
    ∧ MlpActionValue_shape B dobs dact 256 = [B, 2] := by
  constructor
  · show squeezeLastShape
      (mlpShape ([dobs + dact] ++ hidden ++ [1])
        (catLastShape [[B, dobs], [B, dact]])) = [B]
    have hcat : catLastShape [[B, dobs], [B, dact]] = [B, dobs + (dact + 0)] := rfl
    have htail : ([dobs + dact] ++ hidden ++ [1]).tail = hidden ++ [1] := rfl
    rw [hcat, mlpShape, htail, foldl_linearShape_pair,
      getLastD_append_singleton]
    rfl
  · rfl

/-- C9 counterexample: with batch 2 and a single action dimension the
returned action shape is `[2]` — the singleton action (non-batch) dimension
has been removed — and with batch 1 and 3 action dimensions it is `[3]` — a
leading (non-trailing) singleton batch dimension has been removed; the claim
that only trailing singleton batch dimensions are removed fails both ways. -/
theorem policy_squeeze_cex :
    mlpActorActionShape 2 1 = [2]
    ∧ mlpActorActionShape 2 1 ≠ [2, 1]
    ∧ mlpActorActionShape 1 3 = [3]
    ∧ mlpActorActionShape 1 3 ≠ [1, 3] := by
  refine ⟨?_, ?_, ?_, ?_⟩ <;> decide

/-- C9 amended: the forward pass returns `(action, logp)` with `logp = none`
exactly when the log-probability was not requested, and the action tensor has
every singleton dimension removed (`Tensor.squeeze()` with no argument) —
leading batch and singleton action dimensions included, not only trailing
batch dimensions. -/
theorem policy_pair_and_squeeze_all (A : MLPActor) (obs : List Vec)
    (det wl : Bool) (ε : Vec) (R : RNNActor) (os : List T3)
    (det' wl' sh : Bool) (εr : T2) (B dact : ℕ) :
    ((mlpForward A obs det wl ε).2 = none ↔ wl = false)
    ∧ ((rnnForward R os det' wl' sh εr).1.2 = none ↔ wl' = false)
    ∧ mlpActorActionShape B dact =
        if B = 1 then (if dact = 1 then [] else [dact])
        else (if dact = 1 then [B] else [B, dact]) := by
  refine ⟨?_, ?_, ?_⟩
  · cases wl <;> simp [mlpForward]
  · cases wl' <;> simp [rnnForward, rnnDownstream]
  · by_cases hB : B = 1 <;> by_cases hd : dact = 1 <;>
      simp [mlpActorActionShape, squeezeAllShape, hB, hd]

/-- C10: the log-prob computation reduces the Gaussian term over axis `-1`
and the Jacobian correction over axis `1`; on a rank-2 `(B, A)` tensor both
reductions exist and coincide on the action axis (shape `[B]`), on a rank-1
tensor the axis-`1` reduction does not exist, and the computation is defined
exactly for tensors of rank at least 2. -/
theorem logp_requires_rank_at_least_two (B A k : ℕ) (s : List ℕ) :
    sumAxisShape [B, A] (-1) = some [B]
    ∧ sumAxisShape [B, A] 1 = some [B]
    ∧ logpShape [B, A] = some [B]
    ∧ logpShape [k] = none
    ∧ ((logpShape s).isSome ↔ 2 ≤ s.length) := by
  have h2 : ∀ a b : ℕ, sumAxisShape [a, b] (-1) = some [a] := by
    intro a b
    rw [sumAxisShape, normAxis_neg_one _ (by simp)]
    rfl
  have h2' : ∀ a b : ℕ, sumAxisShape [a, b] 1 = some [a] := by
    intro a b
    rw [sumAxisShape, normAxis_one_of_ge _ (by simp)]
    rfl
  have hone : ∀ a : ℕ, sumAxisShape [a] 1 = none := by
    intro a
    rw [sumAxisShape, normAxis_one_of_lt _ (by simp)]
    rfl
  refine ⟨h2 B A, h2' B A, ?_, ?_, ?_⟩
  · rw [logpShape, h2 B A, h2' B A]
  · rw [logpShape, hone k]
    cases h : sumAxisShape [k] (-1) <;> rfl
  · match s with
    | [] =>
        have hm : sumAxisShape [] (-1) = none := by
          simp [sumAxisShape, normAxis_neg_one_zero]
        rw [logpShape, hm]
        simp
    | [a] =>
        rw [logpShape, hone a]
        cases h : sumAxisShape [a] (-1) <;> simp
    | a :: b :: t =>
        have hm1 : sumAxisShape (a :: b :: t) (-1)
            = some ((a :: b :: t).eraseIdx ((a :: b :: t).length - 1)) := by
          rw [sumAxisShape, normAxis_neg_one _ (by simp)]
          rfl
        have h1 : sumAxisShape (a :: b :: t) 1
            = some ((a :: b :: t).eraseIdx 1) := by
          rw [sumAxisShape, normAxis_one_of_ge _ (by simp)]
          rfl
        rw [logpShape, hm1, h1]
        simp

end SacModels
